import Mathlib

/-!
Verification of the pinata game server core: the action dispatcher with its
single retry slot (`src/back/src/game_logic.ts`), the tick loop and the
join/leave protocol of the `Game` class, and the `Colour` value class of the
render system.  TypeScript classes become Lean structures, mutation becomes
explicit state passing, and a thrown exception becomes an `Option Err`
travelling alongside the partially updated state (the state already holds
every side effect applied before the throw point, as in JavaScript).
External collaborators that are not part of the sources (the entity manager,
the `Pipe` transport, the action taxonomy) are modelled from the spec and
say so in their doc comments.
-/

/-- Entity identities, as used throughout the code (`EntityId`). -/
abbrev EntityId := Nat

/-- An error thrown by some collaborator; only its presence matters. -/
abbrev Err := String

/-- Modelled from the spec: a movement direction (`common/direction` is not
among the sources; the dispatcher only forwards the value). -/
inductive Direction where
  | up
  | down
  | left
  | right
deriving DecidableEq, Repr

/-- Modelled from the spec: `PlayerAction` is "a tagged variant; every
variant carries the originating entity identity. Only a 'move' variant with
a direction is defined by the current domain; the action taxonomy is open
for extension."  The `other` constructor stands for any extension tag not
recognised by the dispatcher's `switch`. -/
inductive PlayerAction where
  | move (playerId : EntityId) (direction : Direction)
  | other (tag : Nat) (playerId : EntityId)
deriving DecidableEq, Repr

/-- The originating entity identity every action variant carries. -/
def PlayerAction.playerId : PlayerAction → EntityId
  | .move pid _ => pid
  | .other _ pid => pid

/-- The collaborators `GameLogic` consults, over an abstract world `W`:
`spatialSys.entityIsMoving` (a pure query) and `physicsSys.moveEntity`
(a command that may throw; it returns the world holding whatever side
effects it applied before a throw). -/
structure LogicExt (W : Type) where
  entityIsMoving : W → EntityId → Bool
  moveEntity : W → EntityId → Direction → W × Option Err

namespace GameLogic

/-- `GameLogic._movePlayer`: if the spatial system reports the target entity
as moving, set `_queuedAction` to the action and report failure; otherwise
command the physics system to move the entity and report success.  The
result is `(success, _queuedAction, world)` plus the exception, if any,
escaping from `moveEntity` (in which case the boolean is never consulted by
the caller). -/
def _movePlayer (ext : LogicExt W) (w : W) (slot : Option PlayerAction)
    (pid : EntityId) (dir : Direction) :
    (Bool × Option PlayerAction × W) × Option Err :=
  if ext.entityIsMoving w pid then
    ((false, some (PlayerAction.move pid dir), w), none)
  else
    let (w', e) := ext.moveEntity w pid dir
    ((true, slot, w'), e)

/-- `GameLogic._handlePlayerAction`: dispatch on the action's tag; only
`MOVE` is handled, every other tag falls through to `return false`. -/
def _handlePlayerAction (ext : LogicExt W) (w : W) (slot : Option PlayerAction) :
    PlayerAction → (Bool × Option PlayerAction × W) × Option Err
  | .move pid dir => _movePlayer ext w slot pid dir
  | .other _ _ => ((false, slot, w), none)

/-- The `actions.forEach` loop of `GameLogic.update`: each action is
attempted once; on failure `_queuedAction := action`.  An exception aborts
the remainder of the loop and propagates out. -/
def updateLoop (ext : LogicExt W) (w : W) (slot : Option PlayerAction) :
    List PlayerAction → (Option PlayerAction × W) × Option Err
  | [] => ((slot, w), none)
  | a :: rest =>
      let ((ok, slot', w'), e) := _handlePlayerAction ext w slot a
      match e with
      | some err => ((slot', w'), some err)
      | none => updateLoop ext w' (if ok then slot' else some a) rest

/-- `GameLogic.update`: first re-attempt the `_queuedAction` held in the
retry slot if any (clearing the slot on success), then run the queued
actions through the `forEach` loop. -/
def update (ext : LogicExt W) (w : W) (slot : Option PlayerAction)
    (actions : List PlayerAction) : (Option PlayerAction × W) × Option Err :=
  match slot with
  | none => updateLoop ext w none actions
  | some qa =>
      let ((ok, slot', w'), e) := _handlePlayerAction ext w (some qa) qa
      match e with
      | some err => ((slot', w'), some err)
      | none => updateLoop ext w' (if ok then none else slot') actions

end GameLogic

/-- One physics command issued by the dispatcher (`moveEntity` call). -/
abbrev Cmd := EntityId × Direction

/-- The dispatcher's collaborators specialised for reasoning about the
dispatcher alone: the world is the list of physics commands issued so far,
`entityIsMoving` is an arbitrary busy predicate, and `moveEntity` records
its command and never throws. -/
def pureExt (busy : EntityId → Bool) : LogicExt (List Cmd) where
  entityIsMoving := fun _ pid => busy pid
  moveEntity := fun w pid dir => (w ++ [(pid, dir)], none)

/-- One dispatcher resolve pass under the pure collaborators: the retry
slot after the pass and the physics commands issued during it. -/
def updatePure (busy : EntityId → Bool) (slot : Option PlayerAction)
    (actions : List PlayerAction) : Option PlayerAction × List Cmd :=
  (GameLogic.update (pureExt busy) [] slot actions).1

/-- Whether a single attempt of `a` fails this pass when `busy` is the
spatial system's busy predicate: a move fails exactly when its target is
busy, an unrecognised tag always fails. -/
def attemptFails (busy : EntityId → Bool) : PlayerAction → Bool
  | .move pid _ => busy pid
  | .other _ _ => true

/-- The retry slot before tick `t`, when tick `t` sees busy predicate
`busy t` and queued-action list `queues t`, starting from slot `slot0`
before tick `0`. -/
def dispatchState (busy : Nat → EntityId → Bool) (queues : Nat → List PlayerAction)
    (slot0 : Option PlayerAction) : Nat → Option PlayerAction
  | 0 => slot0
  | t + 1 => (updatePure (busy t) (dispatchState busy queues slot0 t) (queues t)).1

/-- The physics commands issued during tick `t` of the same run. -/
def dispatchCmds (busy : Nat → EntityId → Bool) (queues : Nat → List PlayerAction)
    (slot0 : Option PlayerAction) (t : Nat) : List Cmd :=
  (updatePure (busy t) (dispatchState busy queues slot0 t) (queues t)).2

/-- The actions attempted during tick `t`: the action held in the retry
slot, if any, followed by that tick's queued actions. -/
def attemptedAt (busy : Nat → EntityId → Bool) (queues : Nat → List PlayerAction)
    (slot0 : Option PlayerAction) (t : Nat) : List PlayerAction :=
  (dispatchState busy queues slot0 t).toList ++ queues t

/-- The retry-slot invariant exactly as the spec states it: the slot is
empty or holds one action whose target entity was busy. -/
def slotContendedInv (busy : EntityId → Bool) (slot : Option PlayerAction) : Prop :=
  ∀ a, slot = some a → busy a.playerId = true

/-- The amended retry-slot invariant: the slot is empty or holds one action
whose last attempt failed — a move whose target was busy, or an action of
unrecognised kind. -/
def slotFailedInv (busy : EntityId → Bool) (slot : Option PlayerAction) : Prop :=
  ∀ a, slot = some a → attemptFails busy a = true

/-- Modelled from the spec: the entity types the factory constructs
(`common/game_objects` is not among the sources). -/
inductive EntityType where
  | player
  | rock
  | gem
  | soil
deriving DecidableEq, Repr

/-- An `{id, type}` roster entry, as carried by `NEW_ENTITIES` and
`ENTITIES_DELETED` messages. -/
structure EntityDesc where
  id : EntityId
  etype : EntityType
deriving DecidableEq, Repr

/-- Modelled from the spec: a component payload packet as produced by the
World State Store's dirty read and snapshot; only the entity it belongs to
matters to the core. -/
structure ComponentPacket where
  entityId : EntityId
deriving DecidableEq, Repr

/-- Modelled from the spec: the wire messages of `common/response`
(`NEW_ENTITIES`, `GAME_STATE` with packets and frame number,
`ENTITIES_DELETED`). -/
inductive GameResponse where
  | newEntities (entities : List EntityDesc)
  | gameState (packets : List ComponentPacket) (frameNumber : Nat)
  | entitiesDeleted (entities : List EntityDesc)
deriving DecidableEq, Repr

/-- Modelled from the spec: the `Pipe` Transport Registry — a set of
connections keyed by entity identity with unicast `send` and broadcast
`sendToAll`.  Deliveries are recorded in `outbox` in send order, one entry
per connection per message. -/
structure Pipe where
  sockets : List EntityId
  outbox : List (EntityId × GameResponse)
deriving DecidableEq, Repr

/-- Modelled from the spec: `Pipe.addSocket`. -/
def Pipe.addSocket (p : Pipe) (id : EntityId) : Pipe :=
  { p with sockets := p.sockets ++ [id] }

/-- Modelled from the spec: `Pipe.removeSocket`. -/
def Pipe.removeSocket (p : Pipe) (id : EntityId) : Pipe :=
  { p with sockets := p.sockets.filter (fun i => decide (i ≠ id)) }

/-- Modelled from the spec: `Pipe.send`, unicast to one connection. -/
def Pipe.send (p : Pipe) (id : EntityId) (m : GameResponse) : Pipe :=
  { p with outbox := p.outbox ++ [(id, m)] }

/-- Modelled from the spec: `Pipe.sendToAll`, broadcast to every
connection. -/
def Pipe.sendToAll (p : Pipe) (m : GameResponse) : Pipe :=
  { p with outbox := p.outbox ++ p.sockets.map (fun i => (i, m)) }

/-- Modelled from the spec: the World State Store (`EntityManager`) as the
join/leave protocol sees it — a fresh-identity counter, the entity roster,
and the full-snapshot component packets. -/
structure EM where
  nextId : EntityId
  entities : List EntityDesc
  statePackets : List ComponentPacket
deriving DecidableEq, Repr

/-- Modelled from the spec: `EntityManager.removeEntity` removes the entity
from the roster and drops its components from the snapshot. -/
def EM.removeEntity (em : EM) (id : EntityId) : EM :=
  { em with
    entities := em.entities.filter (fun e => decide (e.id ≠ id)),
    statePackets := em.statePackets.filter (fun p => decide (p.entityId ≠ id)) }

/-- Modelled from the spec: the store is well formed when every roster
entry's identity was allocated below the fresh-identity counter. -/
def EM.wf (em : EM) : Prop :=
  ∀ e ∈ em.entities, e.id < em.nextId

/-- Modelled from the spec: `constructPlayer` of the factory — creates a
fresh entity of type player, adding it to the roster and its component
payload to the snapshot, and returns its identity. -/
def constructPlayer (em : EM) : EntityId × EM :=
  (em.nextId,
   { nextId := em.nextId + 1,
     entities := em.entities ++ [⟨em.nextId, EntityType.player⟩],
     statePackets := em.statePackets ++ [⟨em.nextId⟩] })

/-- The mutable state of a `Game` instance over an abstract simulation
world `W`: the frame counter, the pending-action queue, the game logic's
retry slot, the world, and the pipe. -/
structure GameState (W : Type) where
  frame : Nat
  actionQueue : List PlayerAction
  queuedAction : Option PlayerAction
  world : W
  pipe : Pipe
deriving DecidableEq

/-- The `Game` constructor's state: frame `0`, empty queue, empty retry
slot, no connections, and the freshly populated world `w`. -/
def initGameState (w : W) : GameState W :=
  { frame := 0, actionQueue := [], queuedAction := none, world := w,
    pipe := { sockets := [], outbox := [] } }

/-- The external collaborators of the tick body: the game logic's
collaborators, plus `em.update()` (advance, may throw), `em.getDirties()`
(the dirty packets since the last read, flushing them), and the transport's
broadcast (may throw). -/
structure GameExt (W : Type) extends LogicExt W where
  emUpdate : W → W × Option Err
  getDirties : W → List ComponentPacket × W
  sendToAll : Pipe → GameResponse → Pipe × Option Err

namespace Game

/-- `Game._tick`: dispatch the queued actions, clear the queue, advance the
world, read the dirty set, broadcast a `GAME_STATE` carrying it when non
empty, and finally increment the frame counter.  A thrown exception stops
the body at its throw point: the returned state holds exactly the side
effects applied before it, and the error is returned alongside. -/
def _tick (ext : GameExt W) (s : GameState W) : GameState W × Option Err :=
  let ((slot', w1), e1) :=
    GameLogic.update ext.toLogicExt s.world s.queuedAction s.actionQueue
  let s1 := { s with queuedAction := slot', world := w1 }
  match e1 with
  | some err => (s1, some err)
  | none =>
    let s1 := { s1 with actionQueue := [] }
    let (w2, e2) := ext.emUpdate s1.world
    let s2 := { s1 with world := w2 }
    match e2 with
    | some err => (s2, some err)
    | none =>
      let (dirties, w3) := ext.getDirties s2.world
      let s3 := { s2 with world := w3 }
      if dirties.length > 0 then
        let response := GameResponse.gameState dirties s3.frame
        let (pipe', e3) := ext.sendToAll s3.pipe response
        let s4 := { s3 with pipe := pipe' }
        match e3 with
        | some err => (s4, some err)
        | none => ({ s4 with frame := s4.frame + 1 }, none)
      else
        ({ s3 with frame := s3.frame + 1 }, none)

/-- `noThrow`: the wrapper placed around the tick body by the constructor's
`setInterval` call — run the body, catch and log any exception, and keep
the state as it stood at the throw point. -/
def noThrow (body : GameState W → GameState W × Option Err) (s : GameState W) :
    GameState W :=
  (body s).1

/-- `n` invocations of the periodic schedule: each one runs the guarded
tick body and the loop continues regardless of failures. -/
def runTicks (ext : GameExt W) : Nat → GameState W → GameState W
  | 0, s => s
  | n + 1, s => runTicks ext n (noThrow (_tick ext) s)

/-- The dirty set the tick body reads after dispatch and advance (the value
tested against emptiness and carried by the broadcast, when the phases
before it succeed). -/
def tickDirties (ext : GameExt W) (s : GameState W) : List ComponentPacket :=
  let ((_, w1), _) :=
    GameLogic.update ext.toLogicExt s.world s.queuedAction s.actionQueue
  let (w2, _) := ext.emUpdate w1
  (ext.getDirties w2).1

/-- `Game.addPlayer`: capture the pre-join roster, construct the player
entity, register the connection, then send — the roster to the joiner, the
new-player notice to everyone, and the full snapshot tagged with the
current frame to the joiner.  Returns the new entity's identity. -/
def addPlayer (s : GameState EM) : GameState EM × EntityId :=
  let entities := s.world.entities
  let (id, em') := constructPlayer s.world
  let pipe1 := s.pipe.addSocket id
  let newEntitiesResp := GameResponse.newEntities entities
  let stateUpdateResp := GameResponse.gameState em'.statePackets s.frame
  let newPlayerResp := GameResponse.newEntities [⟨id, EntityType.player⟩]
  let pipe2 := pipe1.send id newEntitiesResp
  let pipe3 := pipe2.sendToAll newPlayerResp
  let pipe4 := pipe3.send id stateUpdateResp
  ({ s with world := em', pipe := pipe4 }, id)

/-- `Game.removePlayer`: remove the entity from the store, remove its
connection from the pipe, then broadcast an `ENTITIES_DELETED` notice
naming it to the remaining connections. -/
def removePlayer (s : GameState EM) (id : EntityId) : GameState EM :=
  let em' := s.world.removeEntity id
  let pipe1 := s.pipe.removeSocket id
  let response := GameResponse.entitiesDeleted [⟨id, EntityType.player⟩]
  let pipe2 := pipe1.sendToAll response
  { s with world := em', pipe := pipe2 }

end Game

/-- `clamp` from `common/utils` (not among the sources), modelled from its
conventional meaning: restrict `value` to `[lo, hi]`.  Numeric values are
modelled as rationals. -/
def clamp (value lo hi : ℚ) : ℚ :=
  min (max value lo) hi

/-- The `Colour` class: four channel fields with clamping setters.  The
stored fields are what the getters return. -/
structure Colour where
  r : ℚ
  g : ℚ
  b : ℚ
  a : ℚ
deriving DecidableEq, Repr

/-- The `r` setter: `this._r = clamp(value, 0, 1)`. -/
def Colour.setR (c : Colour) (value : ℚ) : Colour :=
  { c with r := clamp value 0 1 }

/-- The `g` setter: `this._g = clamp(value, 0, 1)`. -/
def Colour.setG (c : Colour) (value : ℚ) : Colour :=
  { c with g := clamp value 0 1 }

/-- The `b` setter: `this._b = clamp(value, 0, 1)`. -/
def Colour.setB (c : Colour) (value : ℚ) : Colour :=
  { c with b := clamp value 0 1 }

/-- The `a` setter: `this._a = clamp(value, 0, 1)`. -/
def Colour.setA (c : Colour) (value : ℚ) : Colour :=
  { c with a := clamp value 0 1 }

/-- The `Colour` constructor: fields initialised to `(0, 0, 0, 1)`, then
each argument assigned through its setter in order `r`, `g`, `b`, `a`. -/
def Colour.make (r g b a : ℚ) : Colour :=
  ((((⟨0, 0, 0, 1⟩ : Colour).setR r).setG g).setB b).setA a

/-- All four channels lie in the closed interval `[0, 1]`. -/
def Colour.channelsInRange (c : Colour) : Prop :=
  (0 ≤ c.r ∧ c.r ≤ 1) ∧ (0 ≤ c.g ∧ c.g ≤ 1) ∧
  (0 ≤ c.b ∧ c.b ≤ 1) ∧ (0 ≤ c.a ∧ c.a ≤ 1)

/-- Derived form of one resolve step's effect on the retry slot: a failing
attempt overwrites the slot with the failing action, a succeeding one
leaves it alone. -/
def slotStep (busy : EntityId → Bool) (s : Option PlayerAction)
    (a : PlayerAction) : Option PlayerAction :=
  if attemptFails busy a then some a else s

/-- Derived form of the physics commands one attempt of `a` issues: a move
on a non-busy target issues its command, everything else issues none. -/
def actCmds (busy : EntityId → Bool) : PlayerAction → List Cmd
  | .move pid dir => if busy pid then [] else [(pid, dir)]
  | .other _ _ => []

/-- Collaborators for witness runs whose every phase succeeds and whose
dirty set is always empty. -/
def totalExt : GameExt Unit where
  entityIsMoving := fun _ _ => false
  moveEntity := fun w _ _ => (w, none)
  emUpdate := fun w => (w, none)
  getDirties := fun w => ([], w)
  sendToAll := fun p m => (p.sendToAll m, none)

/-- Collaborators for witness runs whose advance phase (`em.update()`)
always throws. -/
def failAdvanceExt : GameExt Unit where
  entityIsMoving := fun _ _ => false
  moveEntity := fun w _ _ => (w, none)
  emUpdate := fun w => (w, some "advance threw")
  getDirties := fun w => ([], w)
  sendToAll := fun p m => (p.sendToAll m, none)

/-- A concrete session state for witness runs of the join protocol: frame
`2`, a store holding entities `0` (a player) and `1` (a rock) with their
packets and fresh-identity counter `3`, and one connection for entity
`0`. -/
def c5State : GameState EM :=
  ⟨2, [], none,
   ⟨3, [⟨0, EntityType.player⟩, ⟨1, EntityType.rock⟩], [⟨0⟩, ⟨1⟩]⟩,
   ⟨[0], []⟩⟩

/-- Collaborators for witness runs whose every phase succeeds and whose
dirty set always holds one packet for entity `7`. -/
def dirtyExt : GameExt Unit where
  entityIsMoving := fun _ _ => false
  moveEntity := fun w _ _ => (w, none)
  emUpdate := fun w => (w, none)
  getDirties := fun w => ([⟨7⟩], w)
  sendToAll := fun p m => (p.sendToAll m, none)

/-! ## Dispatcher lemmas -/

/-- One attempt under the pure collaborators, in closed form: a move on a
busy target fails and writes itself into the slot, a move on a free target
succeeds and issues its command, an unrecognised tag fails untouched. -/
theorem handle_pure (busy : EntityId → Bool) (w : List Cmd)
    (slot : Option PlayerAction) (a : PlayerAction) :
    GameLogic._handlePlayerAction (pureExt busy) w slot a =
      ((!attemptFails busy a,
        (if attemptFails busy a then
           match a with
           | .move pid dir => some (PlayerAction.move pid dir)
           | .other _ _ => slot
         else slot),
        w ++ actCmds busy a), none) := by
  cases a with
  | move pid dir =>
    by_cases h : busy pid
    · simp [GameLogic._handlePlayerAction, GameLogic._movePlayer, pureExt, h,
            attemptFails, actCmds]
    · simp [GameLogic._handlePlayerAction, GameLogic._movePlayer, pureExt, h,
            attemptFails, actCmds]
  | other tag pid =>
    simp [GameLogic._handlePlayerAction, attemptFails, actCmds]

/-- With the pure collaborators the `forEach` loop never throws, folds the
slot-overwrite step over the actions in arrival order, and appends each
attempt's physics commands. -/
theorem updateLoop_pure (busy : EntityId → Bool) (acts : List PlayerAction) :
    ∀ (w : List Cmd) (slot : Option PlayerAction),
      GameLogic.updateLoop (pureExt busy) w slot acts =
        ((acts.foldl (slotStep busy) slot, w ++ acts.flatMap (actCmds busy)), none) := by
  induction acts with
  | nil => intro w slot; simp [GameLogic.updateLoop]
  | cons a rest ih =>
    intro w slot
    rw [GameLogic.updateLoop, handle_pure]
    by_cases h : attemptFails busy a
    · cases a with
      | move pid dir => simp [h, ih, slotStep]
      | other tag pid => simp [h, ih, slotStep]
    · simp [h, ih, slotStep]

/-- Closed form of one full resolve pass under the pure collaborators:
the held action is re-attempted first (clearing or keeping the slot), then
the queued actions fold over the slot, while each successful attempt
appends its physics command. -/
theorem updatePure_char (busy : EntityId → Bool) (slot : Option PlayerAction)
    (acts : List PlayerAction) :
    updatePure busy slot acts =
      (acts.foldl (slotStep busy) (Option.filter (attemptFails busy) slot),
       slot.toList.flatMap (actCmds busy) ++ acts.flatMap (actCmds busy)) := by
  cases slot with
  | none => simp [updatePure, GameLogic.update, updateLoop_pure, Option.filter]
  | some qa =>
    rw [updatePure, GameLogic.update, handle_pure]
    by_cases h : attemptFails busy qa
    · cases qa with
      | move pid dir =>
        simp [h, updateLoop_pure, Option.filter, actCmds, attemptFails] at h ⊢
        simp [h]
      | other tag pid => simp [h, updateLoop_pure, Option.filter, actCmds]
    · cases qa with
      | move pid dir =>
        simp [h, updateLoop_pure, Option.filter, actCmds, attemptFails] at h ⊢
        simp [h]
      | other tag pid => simp [attemptFails] at h

/-- A failing action placed last in the queue ends the pass in the slot,
whatever the slot held before. -/
theorem foldl_slotStep_last (busy : EntityId → Bool) (qs : List PlayerAction)
    (b : PlayerAction) (init : Option PlayerAction)
    (hb : attemptFails busy b = true) :
    (qs ++ [b]).foldl (slotStep busy) init = some b := by
  simp [List.foldl_append, slotStep, hb]

/-- The slot after the queue fold holds either what it started with or some
member of the queue. -/
theorem foldl_slotStep_mem (busy : EntityId → Bool) (acts : List PlayerAction) :
    ∀ (init : Option PlayerAction) (a : PlayerAction),
      acts.foldl (slotStep busy) init = some a → init = some a ∨ a ∈ acts := by
  induction acts with
  | nil => intro init a h; exact Or.inl h
  | cons x rest ih =>
    intro init a h
    rcases ih (slotStep busy init x) a h with h' | h'
    · simp only [slotStep] at h'
      split at h'
      · injection h' with h''
        subst h''
        exact Or.inr (List.mem_cons_self _ _)
      · exact Or.inl h'
    · exact Or.inr (List.mem_cons_of_mem _ h')

/-- If the slot starts the queue fold holding only a failing action, it ends
it holding only a failing action. -/
theorem foldl_slotStep_fails (busy : EntityId → Bool) (acts : List PlayerAction) :
    ∀ (init : Option PlayerAction) (a : PlayerAction),
      (∀ q, init = some q → attemptFails busy q = true) →
      acts.foldl (slotStep busy) init = some a → attemptFails busy a = true := by
  induction acts with
  | nil => intro init a hinit h; exact hinit a h
  | cons x rest ih =>
    intro init a hinit h
    refine ih (slotStep busy init x) a ?_ h
    intro q hq
    simp only [slotStep] at hq
    split at hq
    · injection hq with h''
      subst h''
      assumption
    · exact hinit q hq

/-- Unfolding `Option.filter` hits: the source option held the value and it
satisfies the predicate. -/
theorem optionFilter_eq_some (p : PlayerAction → Bool) (o : Option PlayerAction)
    (a : PlayerAction) (h : Option.filter p o = some a) : o = some a ∧ p a = true := by
  cases o with
  | none => simp [Option.filter] at h
  | some x =>
    simp only [Option.filter] at h
    split at h
    · injection h with h''
      subst h''
      exact ⟨rfl, by assumption⟩
    · simp at h

/-- The slot after a full pass holds either what the pass started with or a
member of that pass's queued-action list. -/
theorem dispatchState_some_src (busy : Nat → EntityId → Bool)
    (queues : Nat → List PlayerAction) (slot0 : Option PlayerAction)
    (t : Nat) (a : PlayerAction)
    (h : dispatchState busy queues slot0 (t + 1) = some a) :
    dispatchState busy queues slot0 t = some a ∨ a ∈ queues t := by
  rw [dispatchState, updatePure_char] at h
  rcases foldl_slotStep_mem _ _ _ _ h with h' | h'
  · exact Or.inl (optionFilter_eq_some _ _ _ h').1
  · exact Or.inr h'

/-! ## Claim theorems for the dispatcher -/

/-- C9 (amended): every dispatcher resolve pass — from any starting slot,
including the initial empty one — leaves the retry slot either empty or
holding exactly one action whose last attempt failed: a move whose target
entity was contended (busy) at that attempt, or an action of unrecognised
kind. -/
theorem retry_slot_failed_invariant (busy : EntityId → Bool)
    (slot : Option PlayerAction) (actions : List PlayerAction) :
    slotFailedInv busy (updatePure busy slot actions).1 := by
  intro a ha
  rw [updatePure_char] at ha
  refine foldl_slotStep_fails busy actions _ a ?_ ha
  intro q hq
  exact (optionFilter_eq_some _ _ _ hq).2

/-- C9 (counterexample): one resolve pass from the empty slot over a single
action of unrecognised kind, on a world where no entity is busy, leaves the
slot holding that action although its target entity was not busy at the
attempt — so the slot does not always hold a contended action. -/
theorem retry_slot_contended_invariant_cex :
    ¬ slotContendedInv (fun _ => false)
        (updatePure (fun _ => false) none [PlayerAction.other 0 0]).1 := by
  intro h
  have h0 : (updatePure (fun _ => false) none [PlayerAction.other 0 0]).1 =
      some (PlayerAction.other 0 0) := by decide
  have h1 := h (PlayerAction.other 0 0) h0
  simp at h1

/-- C1: last-write-wins overwrite of the retry slot — when the held action
`A` fails again in a tick and a later action `B` of that tick's queue also
fails, the resolve pass leaves the slot holding `B`, and on every later tick
whose queue does not resubmit `A`, `A` is never attempted again. -/
theorem retry_slot_last_write_wins (busy : Nat → EntityId → Bool)
    (queues : Nat → List PlayerAction) (A B : PlayerAction)
    (qs : List PlayerAction)
    (hq0 : queues 0 = qs ++ [B])
    (hA : attemptFails (busy 0) A = true)
    (hB : attemptFails (busy 0) B = true)
    (hne : A ≠ B)
    (hfut : ∀ t, 1 ≤ t → A ∉ queues t) :
    dispatchState busy queues (some A) 1 = some B ∧
    ∀ t, 1 ≤ t → A ∉ attemptedAt busy queues (some A) t := by
  have h1 : dispatchState busy queues (some A) 1 = some B := by
    rw [show (1 : Nat) = 0 + 1 from rfl, dispatchState, updatePure_char, hq0]
    exact foldl_slotStep_last _ _ _ _ hB
  have hstate : ∀ t, 1 ≤ t → dispatchState busy queues (some A) t ≠ some A := by
    intro t ht
    induction t, ht using Nat.le_induction with
    | base =>
      rw [h1]
      intro hc
      injection hc with h'
      exact hne h'.symm
    | succ t ht ih =>
      intro hc
      rcases dispatchState_some_src busy queues (some A) t A hc with h' | h'
      · exact ih h'
      · exact hfut t ht h'
  refine ⟨h1, ?_⟩
  intro t ht hmem
  rcases List.mem_append.mp hmem with h' | h'
  · exact hstate t ht (Option.mem_def.mp (Option.mem_toList.mp h'))
  · exact hfut t ht h'

/-- Witness for C1 at a concrete input: with every entity permanently busy,
action `move 1 up` held in the slot and `move 2 up` arriving and failing in
tick `0`, the slot holds `move 2 up` after that tick and `move 1 up` is not
among the actions attempted at tick `1`. -/
theorem retry_slot_last_write_wins_witness :
    attemptFails ((fun _ _ => true) 0) (PlayerAction.move 1 Direction.up) = true ∧
    attemptFails ((fun _ _ => true) 0) (PlayerAction.move 2 Direction.up) = true ∧
    dispatchState (fun _ _ => true)
      (fun t => if t = 0 then [PlayerAction.move 2 Direction.up] else [])
      (some (PlayerAction.move 1 Direction.up)) 1 =
      some (PlayerAction.move 2 Direction.up) ∧
    PlayerAction.move 1 Direction.up ∉
      attemptedAt (fun _ _ => true)
        (fun t => if t = 0 then [PlayerAction.move 2 Direction.up] else [])
        (some (PlayerAction.move 1 Direction.up)) 1 := by
  have h := retry_slot_last_write_wins (fun _ _ => true)
    (fun t => if t = 0 then [PlayerAction.move 2 Direction.up] else [])
    (PlayerAction.move 1 Direction.up) (PlayerAction.move 2 Direction.up) []
    (by simp) (by decide) (by decide) (by decide)
    (fun t ht => by
      have h0 : t ≠ 0 := by omega
      simp [h0])
  exact ⟨by decide, by decide, h.1, h.2 1 (le_refl 1)⟩

/-- C2: a move action submitted on tick `0` whose target is non-busy there
succeeds that same tick (its physics command is issued, the slot stays
empty); if the target stays busy through tick `k - 1`, the action is held
in the retry slot and re-attempted on every tick up to `k`, issues no
command before `k`, succeeds at the first non-busy tick `k`, and the slot
returns to empty.  (No other actions arrive: later queues are empty.) -/
theorem move_retry_until_not_busy (busy : Nat → EntityId → Bool)
    (queues : Nat → List PlayerAction) (pid : EntityId) (dir : Direction)
    (k : Nat)
    (hq0 : queues 0 = [PlayerAction.move pid dir])
    (hq : ∀ t, 1 ≤ t → queues t = [])
    (hbusy : ∀ t, t < k → busy t pid = true)
    (hfree : busy k pid = false) :
    (∀ t, 1 ≤ t → t ≤ k →
      dispatchState busy queues none t = some (PlayerAction.move pid dir)) ∧
    (∀ t, t < k → dispatchCmds busy queues none t = []) ∧
    dispatchCmds busy queues none k = [(pid, dir)] ∧
    dispatchState busy queues none (k + 1) = none := by
  have hstep_held_busy : ∀ t, busy t pid = true →
      updatePure (busy t) (some (PlayerAction.move pid dir)) [] =
        (some (PlayerAction.move pid dir), []) := by
    intro t h
    simp [updatePure_char, Option.filter, attemptFails, actCmds, h]
  have hstate : ∀ t, 1 ≤ t → t ≤ k →
      dispatchState busy queues none t = some (PlayerAction.move pid dir) := by
    intro t ht
    induction t, ht using Nat.le_induction with
    | base =>
      intro htk
      have h0 : busy 0 pid = true := hbusy 0 (Nat.lt_of_lt_of_le Nat.zero_lt_one htk)
      rw [show (1 : Nat) = 0 + 1 from rfl, dispatchState, hq0]
      simp [updatePure_char, Option.filter, slotStep, attemptFails, h0]
    | succ t ht ih =>
      intro htk
      rw [dispatchState, ih (Nat.le_trans (Nat.le_succ t) htk), hq t ht,
          hstep_held_busy t (hbusy t (Nat.lt_of_succ_le htk))]
  refine ⟨hstate, ?_, ?_, ?_⟩
  · intro t htk
    match t with
    | 0 =>
      have h0 : busy 0 pid = true := hbusy 0 htk
      simp [dispatchCmds, dispatchState, hq0, updatePure_char, Option.filter,
            attemptFails, actCmds, h0]
    | Nat.succ u =>
      have h1 : busy (u + 1) pid = true := hbusy (u + 1) htk
      rw [dispatchCmds, hstate (u + 1) (Nat.succ_le_succ (Nat.zero_le u)) (Nat.le_of_lt htk),
          hq (u + 1) (Nat.succ_le_succ (Nat.zero_le u))]
      simp [updatePure_char, Option.filter, attemptFails, actCmds, h1]
  · match k, hfree, hbusy with
    | 0, hfree, _ =>
      simp [dispatchCmds, dispatchState, hq0, updatePure_char, Option.filter,
            attemptFails, actCmds, hfree]
    | Nat.succ u, hfree, hbusy =>
      rw [dispatchCmds, hstate (u + 1) (Nat.succ_le_succ (Nat.zero_le u)) (Nat.le_refl _),
          hq (u + 1) (Nat.succ_le_succ (Nat.zero_le u))]
      simp [updatePure_char, Option.filter, attemptFails, actCmds, hfree]
  · match k, hfree, hbusy with
    | 0, hfree, _ =>
      rw [show (0 + 1 : Nat) = 0 + 1 from rfl, dispatchState, hq0]
      simp [dispatchState, updatePure_char, Option.filter, slotStep, attemptFails, hfree]
    | Nat.succ u, hfree, hbusy =>
      rw [dispatchState, hstate (u + 1) (Nat.succ_le_succ (Nat.zero_le u)) (Nat.le_refl _),
          hq (u + 1) (Nat.succ_le_succ (Nat.zero_le u))]
      simp [updatePure_char, Option.filter, attemptFails, hfree]

/-- Witness for C2 at a concrete input: entity `0` is busy on ticks `0` and
`1` and free from tick `2`; `move 0 up` submitted on tick `0` is held in the
slot after ticks `1` and `2`'s starts, issues no command on tick `0`, issues
its command on tick `2`, and the slot is empty before tick `3`. -/
theorem move_retry_until_not_busy_witness :
    ((fun (t : Nat) (_ : EntityId) => decide (t < 2)) 2 0 = false) ∧
    dispatchState (fun t _ => decide (t < 2))
      (fun t => if t = 0 then [PlayerAction.move 0 Direction.up] else []) none 1 =
      some (PlayerAction.move 0 Direction.up) ∧
    dispatchCmds (fun t _ => decide (t < 2))
      (fun t => if t = 0 then [PlayerAction.move 0 Direction.up] else []) none 0 = [] ∧
    dispatchCmds (fun t _ => decide (t < 2))
      (fun t => if t = 0 then [PlayerAction.move 0 Direction.up] else []) none 2 =
      [(0, Direction.up)] ∧
    dispatchState (fun t _ => decide (t < 2))
      (fun t => if t = 0 then [PlayerAction.move 0 Direction.up] else []) none 3 = none := by
  have h := move_retry_until_not_busy (fun t _ => decide (t < 2))
    (fun t => if t = 0 then [PlayerAction.move 0 Direction.up] else [])
    0 Direction.up 2 (by simp)
    (fun t ht => by
      have h0 : t ≠ 0 := by omega
      simp [h0])
    (by decide) (by decide)
  exact ⟨by decide, h.1 1 (by decide) (by decide), h.2.1 0 (by decide), h.2.2.1, h.2.2.2⟩

/-- C8: an action whose tag is not a recognised action kind is treated as a
failed attempt — once dequeued it lands in the retry slot whatever the slot
held and however busy the world is, and (with no later arrivals to
supersede it) it stays in the slot on every subsequent tick, never issuing
a physics command. -/
theorem unrecognized_action_held_forever (busy : Nat → EntityId → Bool)
    (queues : Nat → List PlayerAction) (tag pid : Nat)
    (hq0 : queues 0 = [PlayerAction.other tag pid])
    (hq : ∀ t, 1 ≤ t → queues t = []) :
    (∀ (b : EntityId → Bool) (slot : Option PlayerAction),
      (updatePure b slot [PlayerAction.other tag pid]).1 =
        some (PlayerAction.other tag pid)) ∧
    (∀ t, 1 ≤ t →
      dispatchState busy queues none t = some (PlayerAction.other tag pid)) ∧
    (∀ t, dispatchCmds busy queues none t = []) := by
  have hdeq : ∀ (b : EntityId → Bool) (slot : Option PlayerAction),
      (updatePure b slot [PlayerAction.other tag pid]).1 =
        some (PlayerAction.other tag pid) := by
    intro b slot
    simp [updatePure_char, slotStep, attemptFails]
  have hstate : ∀ t, 1 ≤ t →
      dispatchState busy queues none t = some (PlayerAction.other tag pid) := by
    intro t ht
    induction t, ht using Nat.le_induction with
    | base =>
      rw [show (1 : Nat) = 0 + 1 from rfl, dispatchState, hq0, hdeq]
    | succ t ht ih =>
      rw [dispatchState, ih, hq t ht]
      simp [updatePure_char, Option.filter, attemptFails]
  refine ⟨hdeq, hstate, ?_⟩
  intro t
  match t with
  | 0 =>
    simp [dispatchCmds, dispatchState, hq0, updatePure_char, actCmds]
  | Nat.succ u =>
    rw [dispatchCmds, hstate (u + 1) (Nat.succ_le_succ (Nat.zero_le u)),
        hq (u + 1) (Nat.succ_le_succ (Nat.zero_le u))]
    simp [updatePure_char, actCmds]

/-- Witness for C8 at a concrete input: an action of unrecognised tag `5`
from entity `3` submitted on tick `0` of an idle world sits in the slot
after ticks `1` and `4`, and ticks `0` and `1` issue no physics command. -/
theorem unrecognized_action_held_forever_witness :
    ((fun (t : Nat) => if t = 0 then [PlayerAction.other 5 3] else []) 0 =
      [PlayerAction.other 5 3]) ∧
    (updatePure (fun _ => false) none [PlayerAction.other 5 3]).1 =
      some (PlayerAction.other 5 3) ∧
    dispatchState (fun _ _ => false)
      (fun t => if t = 0 then [PlayerAction.other 5 3] else []) none 4 =
      some (PlayerAction.other 5 3) ∧
    dispatchCmds (fun _ _ => false)
      (fun t => if t = 0 then [PlayerAction.other 5 3] else []) none 1 = [] := by
  have h := unrecognized_action_held_forever (fun _ _ => false)
    (fun t => if t = 0 then [PlayerAction.other 5 3] else []) 5 3
    (by simp)
    (fun t ht => by
      have h0 : t ≠ 0 := by omega
      simp [h0])
  exact ⟨by decide, h.1 (fun _ => false) none, h.2.1 4 (by decide), h.2.2 1⟩

/-! ## Claim theorems for the tick loop -/

/-- The frame counter is incremented exactly when the tick body runs to
completion, and left untouched when any phase throws. -/
theorem tick_frame (ext : GameExt W) (s : GameState W) :
    ((Game._tick ext s).1).frame =
      if (Game._tick ext s).2 = none then s.frame + 1 else s.frame := by
  rcases hu : GameLogic.update ext.toLogicExt s.world s.queuedAction s.actionQueue
    with ⟨⟨slot', w1⟩, e1⟩
  cases e1 with
  | some err => simp [Game._tick, hu]
  | none =>
    rcases ha : ext.emUpdate w1 with ⟨w2, e2⟩
    cases e2 with
    | some err => simp [Game._tick, hu, ha]
    | none =>
      rcases hd : ext.getDirties w2 with ⟨dirties, w3⟩
      by_cases hl : dirties.length > 0
      · rcases hs : ext.sendToAll s.pipe (GameResponse.gameState dirties s.frame)
          with ⟨pipe', e3⟩
        cases e3 with
        | some err => simp [Game._tick, hu, ha, hd, hl, hs]
        | none => simp [Game._tick, hu, ha, hd, hl, hs]
      · simp [Game._tick, hu, ha, hd, hl]

/-- C3: when any phase of the tick body (dispatch, advance, or broadcast)
throws, the wrapper catches the exception at the tick boundary: the kept
state is exactly the partial state at the throw point (earlier side effects
remain applied — no tick atomicity), the frame counter of that invocation
is not incremented, and the periodic schedule continues — the next tick of
every run proceeds from that caught state as normal. -/
theorem tick_failure_contained (ext : GameExt W) (s : GameState W) (err : Err)
    (h : (Game._tick ext s).2 = some err) :
    Game.noThrow (Game._tick ext) s = (Game._tick ext s).1 ∧
    (Game.noThrow (Game._tick ext) s).frame = s.frame ∧
    (∀ n, Game.runTicks ext (n + 1) s =
      Game.runTicks ext n (Game.noThrow (Game._tick ext) s)) := by
  refine ⟨rfl, ?_, fun n => rfl⟩
  rw [Game.noThrow, tick_frame]
  simp [h]

/-- Witness for C3 at a concrete input: with an advance phase that always
throws, a tick from frame `5` with one pending action is caught, leaves the
frame at `5`, and still shows dispatch's side effect (the queue cleared)
in the kept state. -/
theorem tick_failure_contained_witness :
    (Game._tick failAdvanceExt
      ⟨5, [PlayerAction.move 0 Direction.up], none, (), ⟨[], []⟩⟩).2 =
      some "advance threw" ∧
    (Game.noThrow (Game._tick failAdvanceExt)
      ⟨5, [PlayerAction.move 0 Direction.up], none, (), ⟨[], []⟩⟩).frame = 5 ∧
    (Game.noThrow (Game._tick failAdvanceExt)
      ⟨5, [PlayerAction.move 0 Direction.up], none, (), ⟨[], []⟩⟩).actionQueue = [] := by
  have h := tick_failure_contained failAdvanceExt
    ⟨5, [PlayerAction.move 0 Direction.up], none, (), ⟨[], []⟩⟩
    "advance threw" (by decide)
  exact ⟨by decide, h.2.1, by decide⟩

/-- C4: the frame counter starts at `0`, a successful tick increments it by
exactly `1` whatever the dirty set and broadcast did, and after `N`
successful tick invocations it equals its starting value plus `N`. -/
theorem frame_counts_successful_ticks (ext : GameExt W) (w : W)
    (s : GameState W) (n : Nat)
    (h : ∀ k, k < n → (Game._tick ext (Game.runTicks ext k s)).2 = none) :
    (initGameState w).frame = 0 ∧
    (∀ s' : GameState W, (Game._tick ext s').2 = none →
      ((Game._tick ext s').1).frame = s'.frame + 1) ∧
    (Game.runTicks ext n s).frame = s.frame + n := by
  refine ⟨rfl, ?_, ?_⟩
  · intro s' h'
    rw [tick_frame]
    simp [h']
  · induction n generalizing s with
    | zero => simp [Game.runTicks]
    | succ n ih =>
      have h0 : (Game._tick ext s).2 = none := h 0 (Nat.succ_pos n)
      have hrest : ∀ k, k < n →
          (Game._tick ext
            (Game.runTicks ext k (Game.noThrow (Game._tick ext) s))).2 = none := by
        intro k hk
        exact h (k + 1) (Nat.succ_lt_succ hk)
      have hf : (Game.noThrow (Game._tick ext) s).frame = s.frame + 1 := by
        rw [Game.noThrow, tick_frame]
        simp [h0]
      rw [Game.runTicks, ih (Game.noThrow (Game._tick ext) s) hrest, hf]
      omega

/-- Witness for C4 at a concrete input: three ticks of the all-successful
collaborators from the constructor state all succeed and take the frame
counter from `0` to `3`. -/
theorem frame_counts_successful_ticks_witness :
    (∀ k, k < 3 →
      (Game._tick totalExt (Game.runTicks totalExt k (initGameState ()))).2 = none) ∧
    (Game.runTicks totalExt 3 (initGameState ())).frame =
      (initGameState ()).frame + 3 := by
  exact ⟨by decide,
    (frame_counts_successful_ticks totalExt () (initGameState ()) 3 (by decide)).2.2⟩

/-- C6: on a successfully completing tick over the real broadcast transport,
an empty dirty set (read after advancing) means the pipe is untouched — no
`GAME_STATE` message and no heartbeat — while a non-empty dirty set means
exactly one `GAME_STATE` broadcast carrying those packets, tagged with the
frame number current at send time, delivered to every connected
transport. -/
theorem gamestate_broadcast_iff_dirty (ext : GameExt W) (s : GameState W)
    (hsend : ext.sendToAll = fun p m => (p.sendToAll m, none))
    (hok : (Game._tick ext s).2 = none) :
    (Game.tickDirties ext s = [] → ((Game._tick ext s).1).pipe = s.pipe) ∧
    (Game.tickDirties ext s ≠ [] →
      ((Game._tick ext s).1).pipe.outbox =
        s.pipe.outbox ++ s.pipe.sockets.map
          (fun i => (i, GameResponse.gameState (Game.tickDirties ext s) s.frame))) := by
  rcases hu : GameLogic.update ext.toLogicExt s.world s.queuedAction s.actionQueue
    with ⟨⟨slot', w1⟩, e1⟩
  cases e1 with
  | some err => simp [Game._tick, hu] at hok
  | none =>
    rcases ha : ext.emUpdate w1 with ⟨w2, e2⟩
    cases e2 with
    | some err => simp [Game._tick, hu, ha] at hok
    | none =>
      rcases hd : ext.getDirties w2 with ⟨dirties, w3⟩
      have htd : Game.tickDirties ext s = dirties := by
        simp [Game.tickDirties, hu, ha, hd]
      by_cases hl : dirties.length > 0
      · constructor
        · intro hnil
          rw [htd] at hnil
          simp [hnil] at hl
        · intro _
          rw [htd]
          simp [Game._tick, hu, ha, hd, hl, hsend, Pipe.sendToAll]
      · constructor
        · intro _
          simp [Game._tick, hu, ha, hd, hl]
        · intro hne
          rw [htd] at hne
          exact absurd (List.length_eq_zero.mp (by omega)) hne
      
/-- Witness for C6 at a concrete input: collaborators whose dirty set is
one packet for entity `7`, from frame `5` with connections `1` and `2` —
both connections receive exactly one `GAME_STATE` with that packet tagged
with frame `5`. -/
theorem gamestate_broadcast_iff_dirty_witness :
    (Game._tick dirtyExt ⟨5, [], none, (), ⟨[1, 2], []⟩⟩).2 = none ∧
    Game.tickDirties dirtyExt ⟨5, [], none, (), ⟨[1, 2], []⟩⟩ = [⟨7⟩] ∧
    ((Game._tick dirtyExt ⟨5, [], none, (), ⟨[1, 2], []⟩⟩).1).pipe.outbox =
      [(1, GameResponse.gameState [⟨7⟩] 5), (2, GameResponse.gameState [⟨7⟩] 5)] := by
  have h := gamestate_broadcast_iff_dirty dirtyExt ⟨5, [], none, (), ⟨[1, 2], []⟩⟩
    rfl (by decide)
  refine ⟨by decide, by decide, ?_⟩
  have h2 := h.2 (by decide)
  rw [h2]
  decide

/-! ## Claim theorems for the join/leave protocol -/

/-- C5: `addPlayer` sequencing on a well-formed store — the pre-join roster
is captured before the player entity is created so the roster unicast to the
joiner never includes the joiner's own entity; the connection is registered
before any send; the outbox then gains, in order, the roster unicast to the
joiner, the new-entity notice naming only the new player broadcast to every
connection including the new one, and the unicast full-state snapshot
tagged with the current frame number — a snapshot that does include the new
player's entity. -/
theorem addPlayer_join_sequencing (s : GameState EM) (hwf : s.world.wf) :
    (∀ e ∈ s.world.entities, e.id ≠ (Game.addPlayer s).2) ∧
    (∃ p ∈ ((Game.addPlayer s).1).world.statePackets,
      p.entityId = (Game.addPlayer s).2) ∧
    ((Game.addPlayer s).1).pipe.outbox =
      s.pipe.outbox
      ++ [((Game.addPlayer s).2, GameResponse.newEntities s.world.entities)]
      ++ (s.pipe.sockets ++ [(Game.addPlayer s).2]).map
          (fun i => (i, GameResponse.newEntities
            [⟨(Game.addPlayer s).2, EntityType.player⟩]))
      ++ [((Game.addPlayer s).2,
           GameResponse.gameState ((Game.addPlayer s).1).world.statePackets
             s.frame)] := by
  have hid : (Game.addPlayer s).2 = s.world.nextId := rfl
  refine ⟨?_, ?_, ?_⟩
  · intro e he
    rw [hid]
    exact Nat.ne_of_lt (hwf e he)
  · refine ⟨⟨s.world.nextId⟩, ?_, by rw [hid]⟩
    simp [Game.addPlayer, constructPlayer]
  · simp [Game.addPlayer, constructPlayer, Pipe.addSocket, Pipe.send,
          Pipe.sendToAll]

/-- Witness for C5 at a concrete input: joining the `c5State` session, the
pre-join roster sent to the joiner excludes the new identity `3` and the
snapshot sent afterwards includes it. -/
theorem addPlayer_join_sequencing_witness :
    c5State.world.wf ∧
    (∀ e ∈ c5State.world.entities, e.id ≠ (Game.addPlayer c5State).2) ∧
    (∃ p ∈ ((Game.addPlayer c5State).1).world.statePackets,
      p.entityId = (Game.addPlayer c5State).2) := by
  have hwf : c5State.world.wf :=
    show ∀ e ∈ c5State.world.entities, e.id < c5State.world.nextId by decide
  have h := addPlayer_join_sequencing c5State hwf
  exact ⟨hwf, h.1, h.2.1⟩

/-- C7: `removePlayer` sequencing — the entity is removed from the store and
its connection from the transport before the broadcast, so after the call
the registry holds no connection for it, the roster no longer lists it, and
exactly one `ENTITIES_DELETED` broadcast naming it went out, delivered to
exactly the remaining connections. -/
theorem removePlayer_leave_sequencing (s : GameState EM) (id : EntityId) :
    (Game.removePlayer s id).pipe.sockets =
      s.pipe.sockets.filter (fun i => decide (i ≠ id)) ∧
    id ∉ (Game.removePlayer s id).pipe.sockets ∧
    (∀ e ∈ (Game.removePlayer s id).world.entities, e.id ≠ id) ∧
    (Game.removePlayer s id).pipe.outbox =
      s.pipe.outbox ++ (s.pipe.sockets.filter (fun i => decide (i ≠ id))).map
        (fun i => (i, GameResponse.entitiesDeleted [⟨id, EntityType.player⟩])) := by
  refine ⟨rfl, ?_, ?_, rfl⟩
  · intro hmem
    simp [Game.removePlayer, Pipe.removeSocket, Pipe.sendToAll,
          List.mem_filter] at hmem
  · intro e he
    simp [Game.removePlayer, EM.removeEntity, List.mem_filter] at he
    exact he.2

/-! ## Claim theorem for the Colour class -/

/-- C10: every `Colour` write path clamps its input to `[0, 1]` — after
construction all four stored channel values (which the getters return) lie
in `[0, 1]`, and each setter keeps them there for any assigned value. -/
theorem colour_channels_clamped :
    (∀ r g b a : ℚ, (Colour.make r g b a).channelsInRange) ∧
    (∀ (c : Colour) (v : ℚ), c.channelsInRange → (c.setR v).channelsInRange) ∧
    (∀ (c : Colour) (v : ℚ), c.channelsInRange → (c.setG v).channelsInRange) ∧
    (∀ (c : Colour) (v : ℚ), c.channelsInRange → (c.setB v).channelsInRange) ∧
    (∀ (c : Colour) (v : ℚ), c.channelsInRange → (c.setA v).channelsInRange) := by
  have h0 : ∀ v : ℚ, 0 ≤ clamp v 0 1 := fun v => le_min (le_max_right v 0) zero_le_one
  have h1 : ∀ v : ℚ, clamp v 0 1 ≤ 1 := fun v => min_le_right _ _
  refine ⟨?_, ?_, ?_, ?_, ?_⟩
  · intro r g b a
    exact ⟨⟨h0 r, h1 r⟩, ⟨h0 g, h1 g⟩, ⟨h0 b, h1 b⟩, ⟨h0 a, h1 a⟩⟩
  · intro c v h
    exact ⟨⟨h0 v, h1 v⟩, h.2.1, h.2.2.1, h.2.2.2⟩
  · intro c v h
    exact ⟨h.1, ⟨h0 v, h1 v⟩, h.2.2.1, h.2.2.2⟩
  · intro c v h
    exact ⟨h.1, h.2.1, ⟨h0 v, h1 v⟩, h.2.2.2⟩
  · intro c v h
    exact ⟨h.1, h.2.1, h.2.2.1, ⟨h0 v, h1 v⟩⟩

/-- Witness for C10 at concrete inputs: a colour constructed from
out-of-range arguments has all channels in `[0, 1]`, and so does the result
of assigning `7` to its red channel. -/
theorem colour_channels_clamped_witness :
    (Colour.make 2 (-1) (1/2) 5).channelsInRange ∧
    ((Colour.make 2 (-1) (1/2) 5).setR 7).channelsInRange := by
  exact ⟨colour_channels_clamped.1 2 (-1) (1/2) 5,
         colour_channels_clamped.2.1 _ 7
           (colour_channels_clamped.1 2 (-1) (1/2) 5)⟩

/-- Witness for C7 at a concrete input: removing entity `2` from a session
with connections `1` and `2` leaves no connection and no roster entry for
`2`. -/
theorem removePlayer_leave_sequencing_witness :
    2 ∉ (Game.removePlayer
      ⟨0, [], none, ⟨3, [⟨2, EntityType.player⟩], [⟨2⟩]⟩, ⟨[1, 2], []⟩⟩
      2).pipe.sockets ∧
    (∀ e ∈ (Game.removePlayer
      ⟨0, [], none, ⟨3, [⟨2, EntityType.player⟩], [⟨2⟩]⟩, ⟨[1, 2], []⟩⟩
      2).world.entities, e.id ≠ 2) := by
  have h := removePlayer_leave_sequencing
    ⟨0, [], none, ⟨3, [⟨2, EntityType.player⟩], [⟨2⟩]⟩, ⟨[1, 2], []⟩⟩ 2
  exact ⟨h.2.1, h.2.2.1⟩

/-- Witness for C9's amended invariant at a concrete input: the pass of the
counterexample run satisfies the failed-last-attempt invariant. -/
theorem retry_slot_failed_invariant_witness :
    slotFailedInv (fun _ => false)
      (updatePure (fun _ => false) none [PlayerAction.other 0 0]).1 :=
  retry_slot_failed_invariant (fun _ => false) none [PlayerAction.other 0 0]
